import Mathlib

/-!
Verification of `src/intgrad1/intgrad1.py` (function `intgrad1`): a shallow
embedding of the routine over exact rationals, together with theorems settling
the specification claims.

The embedding models the numpy / scipy primitives the source calls by their
documented semantics:
* arrays carry their rank (`NpArr`), since the source mixes 1-D and 2-D arrays:
  `np.matlib.repmat(dx, nx-1, 1)` produces an `(nx-1, 1)` column array;
* elementwise arithmetic follows numpy broadcasting (`bc`), restricted to the
  shapes that actually occur in the program;
* `np.cumsum` with no axis argument flattens its input before summing;
* `scipy.interpolate.CubicSpline(xp, fx).c.T` is an external collaborator and
  is passed in as a function argument `fitter : List ℚ → List ℚ → List (List ℚ)`
  returning one row `[c0, c1, c2, c3]` (cubic → constant) per segment.
-/

namespace Intgrad1

/-- model of a numpy array of the two ranks occurring in `intgrad1`:
rank 1 (`one`) and rank 2 (`two`, a list of rows). -/
inductive NpArr where
  | one (data : List ℚ)
  | two (rows : List (List ℚ))
deriving DecidableEq

/-- flattening of an array, as `np.cumsum` does on its input when no axis is
given (row-major order). -/
def NpArr.flatten : NpArr → List ℚ
  | .one d => d
  | .two rows => rows.flatten

/-- number of elements of an array (numpy `size`). -/
def NpArr.sizeA : NpArr → ℕ
  | .one d => d.length
  | .two rows => (rows.map List.length).sum

/-- elementwise map over an array, used for division by a scalar
(`c[:,2]/2` and the like). -/
def NpArr.mapQ (f : ℚ → ℚ) : NpArr → NpArr
  | .one d => .one (d.map f)
  | .two rows => .two (rows.map (fun r => r.map f))

/-- numpy broadcasting of a binary elementwise operation at the level of one
row pair: a length-1 row is stretched to the length of the other operand,
otherwise the rows are combined pointwise.  This is exactly numpy's rule for
the shapes occurring in `intgrad1` (an `(m,1)` column against a length-`k`
vector or an `(m,k)` matrix, and same-shape operands). -/
def bcRow (f : ℚ → ℚ → ℚ) (ra rb : List ℚ) : List ℚ :=
  if ra.length = 1 then rb.map (f (ra.headD 0))
  else if rb.length = 1 then ra.map (fun x => f x (rb.headD 0))
  else List.zipWith f ra rb

/-- numpy broadcasting of a binary elementwise operation on whole arrays:
1-D against 1-D combines pointwise; a 2-D operand against a 1-D operand
combines every row with the vector; 2-D against 2-D combines row by row
(each row pair broadcast by `bcRow`). -/
def bc (f : ℚ → ℚ → ℚ) : NpArr → NpArr → NpArr
  | .one a, .one b => .one (List.zipWith f a b)
  | .two rows, .one b => .two (rows.map (fun r => bcRow f r b))
  | .one a, .two rows => .two (rows.map (fun r => bcRow f a r))
  | .two ra, .two rb => .two (List.zipWith (bcRow f) ra rb)

/-- elementwise product with numpy broadcasting (`*` in the source). -/
def npMul : NpArr → NpArr → NpArr := bc (fun a b => a * b)

/-- elementwise sum with numpy broadcasting (`+` in the source). -/
def npAdd : NpArr → NpArr → NpArr := bc (fun a b => a + b)

/-- division of an array by a scalar (`c[:,2]/2`, `c[:,1]/3`, `.../4`). -/
def npDivS (a : NpArr) (s : ℚ) : NpArr := a.mapQ (fun x => x / s)

/-- model of `np.diff` on a 1-D array: adjacent differences. -/
def npDiff : List ℚ → List ℚ
  | a :: b :: rest => (b - a) :: npDiff (b :: rest)
  | _ => []

/-- running sums of a list starting from accumulator `acc`. -/
def cumsumFrom (acc : ℚ) : List ℚ → List ℚ
  | [] => []
  | x :: xs => (acc + x) :: cumsumFrom (acc + x) xs

/-- model of `np.cumsum` on an already flattened array. -/
def npCumsumList (l : List ℚ) : List ℚ := cumsumFrom 0 l

/-- column extraction `c[:, j]` from the transposed coefficient matrix
(one row of four coefficients per spline segment). -/
def colD (c : List (List ℚ)) (j : ℕ) : List ℚ := c.map (fun row => row.getD j 0)

/-- model of the possible shapes of the first argument `fx` (`dfdx`): a 0-D
array, a 1-D array, or an array of rank at least 2 (collapsed to rank 2,
which is all `len(fx.shape) > 1` can observe). -/
inductive FxInput where
  | zeroD (q : ℚ)
  | one (data : List ℚ)
  | multi (rows : List (List ℚ))
deriving DecidableEq

/-- model of `len(fx.shape)`, the rank of the derivative input. -/
def fxNdim : FxInput → ℕ
  | .zeroD _ => 0
  | .one _ => 1
  | .multi _ => 2

/-- model of `fx.size` (`nx` in the source): total number of elements. -/
def fxSize : FxInput → ℕ
  | .zeroD _ => 1
  | .one d => d.length
  | .multi rows => (rows.map List.length).sum

/-- contents of the derivative input once it is known to be 1-D. -/
def fxData : FxInput → List ℚ
  | .one d => d
  | .zeroD q => [q]
  | .multi _ => []

/-- model of the spacing argument `dx`: a scalar or a 1-D sequence. -/
inductive DxInput where
  | scalar (d : ℚ)
  | vec (ds : List ℚ)
deriving DecidableEq

/-- model of `np.array([dx]).size`: 1 for a scalar, the length for a
sequence (wrapping in a singleton list adds a leading axis of extent 1,
which leaves the element count unchanged). -/
def dxSize : DxInput → ℕ
  | .scalar _ => 1
  | .vec ds => ds.length

/-- the scalar spacing value used on the `size == 1` branch.  A length-1
sequence reaches this branch too; numpy broadcasting then uses its single
element exactly like a scalar. -/
def dxScalarVal : DxInput → ℚ
  | .scalar d => d
  | .vec ds => ds.headD 0

/-- the coordinate vector used on the `size == nx` branch. -/
def dxVec : DxInput → List ℚ
  | .scalar d => [d]
  | .vec ds => ds

/-- model of the initial-value argument `f1`: a finite scalar, NaN, one of
the two infinities, or a non-scalar (an array holding `m + 2` elements). -/
inductive F1Val where
  | scalar (q : ℚ)
  | nan
  | inf
  | ninf
  | multi (m : ℕ)
deriving DecidableEq

/-- model of `np.size(f1)`. -/
def f1Size : F1Val → ℕ
  | .multi m => m + 2
  | _ => 1

/-- model of `np.isnan(f1)` (only consulted when `f1` is scalar-sized,
thanks to Python's short-circuiting `or`). -/
def f1IsNan : F1Val → Bool
  | .nan => true
  | _ => false

/-- model of `np.isfinite(f1)` for scalar-sized `f1`. -/
def f1IsFinite : F1Val → Bool
  | .scalar _ => true
  | .multi _ => true
  | _ => false

/-- numeric value of a finite scalar initial value. -/
def f1Scalar : F1Val → ℚ
  | .scalar q => q
  | _ => 0

/-- model of the source's guard
`np.size(f1) > 1 or np.isnan(f1) or not np.isfinite(f1)`. -/
def badF1 (f1 : F1Val) : Bool :=
  decide (1 < f1Size f1) || f1IsNan f1 || !f1IsFinite f1

/-- error taxonomy of the routine.  The source raises bare `Exception`s; the
four messages are classified as in the specification:
`shape` for "dfdx must be a vector." and "dfdx must be a vector of length >= 2",
`spacing` for "dx is not a scalar or of length == nx",
`monotonicity` for "x points must be monotonic increasing",
`value` for "f1 must be a finite scalar numeric variable.". -/
inductive Err where
  | shape
  | spacing
  | monotonicity
  | value
deriving DecidableEq

/-- model of the `if/elif/else` block resolving the spacing argument
(source lines 67-82): the scalar branch builds
`xp = np.linspace(0, nx-1, num=nx) * dx` and
`dx = np.matlib.repmat(dx, nx-1, 1)` (an `(nx-1, 1)` column array); the
vector branch keeps `xp = dx`, replaces `dx` by `np.diff(dx)` (1-D) and
raises on a non-positive adjacent difference; any other size raises the
spacing error.  (`mdx`, `ddx` and `uniflag` are also computed there but have
no effect on the result, so they are not carried further.) -/
def resolveSpacing (nx : ℕ) (dx : DxInput) : Except Err (List ℚ × NpArr) :=
  if dxSize dx = 1 then
    .ok ((List.range nx).map (fun i => (i : ℚ) * dxScalarVal dx),
         .two (List.replicate (nx - 1) [dxScalarVal dx]))
  else if dxSize dx = nx then
    let dxd := npDiff (dxVec dx)
    if dxd.any (fun t => decide (t ≤ 0)) then .error .monotonicity
    else .ok (dxVec dx, .one dxd)
  else .error .spacing

/-- the segment-integration expression of source line 90,
`dx*(c[:,3] + dx*(c[:,2]/2 + dx*(c[:,1]/3 + dx*c[:,0]/4)))`, evaluated with
numpy broadcasting; `dxA` is whatever array the spacing resolution bound to
`dx` (a 2-D column on the scalar branch, a 1-D vector on the vector branch). -/
def fhatExpr (dxA : NpArr) (c : List (List ℚ)) : NpArr :=
  npMul dxA (npAdd (.one (colD c 3))
    (npMul dxA (npAdd (npDivS (.one (colD c 2)) 2)
      (npMul dxA (npAdd (npDivS (.one (colD c 1)) 3)
        (npDivS (npMul dxA (.one (colD c 0))) 4))))))

/-- model of `intgrad1(fx, dx, f1)` (source lines 59-93), with the external
spline fit `scipy.interpolate.CubicSpline(xp, fx).c.T` abstracted as
`fitter xp fxdata`, returning one row `[c0, c1, c2, c3]` per segment.
The final line models
`f1 + np.insert(np.cumsum(fhat), 0, 0)`: flatten, running sums, prepend a
zero, add `f1` elementwise. -/
def intgrad1 (fitter : List ℚ → List ℚ → List (List ℚ))
    (fx : FxInput) (dx : DxInput) (f1 : F1Val) : Except Err (List ℚ) :=
  if 1 < fxNdim fx then .error .shape
  else if fxSize fx < 2 then .error .shape
  else
    match resolveSpacing (fxSize fx) dx with
    | .error e => .error e
    | .ok (xp, dxA) =>
      if badF1 f1 then .error .value
      else
        let c := fitter xp (fxData fx)
        .ok ((0 :: npCumsumList (NpArr.flatten (fhatExpr dxA c))).map
              (fun t => f1Scalar f1 + t))

/-- model of the external spline fit on constant-one samples: the unique
cubic-spline interpolant of constant data is the constant function, so
`scipy.interpolate.CubicSpline(xp, fx).c.T` is one row `[0, 0, 0, 1]`
(cubic, quadratic, linear, constant) per segment. -/
def splineConstOne : List ℚ → List ℚ → List (List ℚ) :=
  fun xp _ => List.replicate (xp.length - 1) [0, 0, 0, 1]

/-- definition following the specification's words (§4.4): the closed-form
integral of one cubic segment with coefficient row `[c0, c1, c2, c3]` over a
width `dx`, `dx*(c3 + dx*(c2/2 + dx*(c1/3 + dx*c0/4)))`. -/
def specSegmentIntegral (dx : ℚ) (row : List ℚ) : ℚ :=
  dx * (row.getD 3 0 + dx * (row.getD 2 0 / 2 +
    dx * (row.getD 1 0 / 3 + dx * row.getD 0 0 / 4)))

/-- definition following the specification's words (§4.5): prefix a zero onto
the cumulative sum of the segment integrals and add the integration constant
elementwise. -/
def specAssemble (f1 : ℚ) (integrals : List ℚ) : List ℚ :=
  (0 :: npCumsumList integrals).map (fun t => f1 + t)

/-! Heap-passing model for the frame claim: numpy values live in a heap
(a list of arrays addressed by index), the caller passes its arrays by
reference, and—as in the source, which contains no in-place array writes—
every intermediate result is a fresh allocation appended to the heap. -/

/-- spacing argument as the caller passes it: a scalar, or a reference to a
caller-owned array in the heap. -/
inductive DxArg where
  | scalar (d : ℚ)
  | vecRef (r : ℕ)
deriving DecidableEq

/-- rank of a heap array. -/
def arrNdim : NpArr → ℕ
  | .one _ => 1
  | .two _ => 2

/-- contents of a heap array known to be 1-D. -/
def arrData : NpArr → List ℚ
  | .one d => d
  | .two _ => []

/-- model of `np.array([dx]).size` for a by-reference spacing argument. -/
def dxArgSize (h : List NpArr) : DxArg → ℕ
  | .scalar _ => 1
  | .vecRef r => (h.getD r (.one [])).sizeA

/-- scalar spacing value for a by-reference spacing argument. -/
def dxArgScalar (h : List NpArr) : DxArg → ℚ
  | .scalar d => d
  | .vecRef r => (h.getD r (.one [])).flatten.headD 0

/-- coordinate vector for a by-reference spacing argument. -/
def dxArgVec (h : List NpArr) : DxArg → List ℚ
  | .scalar d => [d]
  | .vecRef r => (h.getD r (.one [])).flatten

/-- heap-passing model of `intgrad1`: same computation as `intgrad1`, with the
derivative array and a vector spacing argument read from the heap through the
caller's references, and each intermediate numpy result
(`xp`, the rebound `dx`, the spline coefficients, both `fhat` arrays)
allocated as a fresh heap cell.  No step writes to an existing cell, because
no statement of the source stores into an existing array.  Returns the final
heap and either an error or a reference to the output array. -/
def intgrad1Heap (fitter : List ℚ → List ℚ → List (List ℚ))
    (h : List NpArr) (fxRef : ℕ) (dxArg : DxArg) (f1 : F1Val) :
    List NpArr × Except Err ℕ :=
  let fx := h.getD fxRef (.one [])
  if 1 < arrNdim fx then (h, .error .shape)
  else if fx.sizeA < 2 then (h, .error .shape)
  else
    let nx := fx.sizeA
    if dxArgSize h dxArg = 1 then
      let mdx := dxArgScalar h dxArg
      let xpA : List ℚ := (List.range nx).map (fun i => (i : ℚ) * mdx)
      let h1 := h ++ [.one xpA]
      let dxA : NpArr := .two (List.replicate (nx - 1) [mdx])
      let h2 := h1 ++ [dxA]
      if badF1 f1 then (h2, .error .value)
      else
        let c := fitter xpA (arrData fx)
        let h3 := h2 ++ [.two c]
        let fh := fhatExpr dxA c
        let h4 := h3 ++ [fh]
        let out := (0 :: npCumsumList fh.flatten).map (fun t => f1Scalar f1 + t)
        let h5 := h4 ++ [.one out]
        (h5, .ok h4.length)
    else if dxArgSize h dxArg = nx then
      let xpA := dxArgVec h dxArg
      let dxd := npDiff xpA
      let h1 := h ++ [.one dxd]
      if dxd.any (fun t => decide (t ≤ 0)) then (h1, .error .monotonicity)
      else if badF1 f1 then (h1, .error .value)
      else
        let c := fitter xpA (arrData fx)
        let h2 := h1 ++ [.two c]
        let fh := fhatExpr (.one dxd) c
        let h3 := h2 ++ [fh]
        let out := (0 :: npCumsumList fh.flatten).map (fun t => f1Scalar f1 + t)
        let h4 := h3 ++ [.one out]
        (h4, .ok h3.length)
    else (h, .error .spacing)



lemma length_cumsumFrom (l : List ℚ) : ∀ acc, (cumsumFrom acc l).length = l.length := by
  induction l with
  | nil => intro acc; rfl
  | cons x xs ih => intro acc; simp [cumsumFrom, ih]

lemma length_npCumsumList (l : List ℚ) : (npCumsumList l).length = l.length :=
  length_cumsumFrom l 0

lemma length_colD (c : List (List ℚ)) (j : ℕ) : (colD c j).length = c.length := by
  simp [colD]

lemma bcRow_singleton (f : ℚ → ℚ → ℚ) (x : ℚ) (b : List ℚ) :
    bcRow f [x] b = b.map (f x) := by
  simp [bcRow]

lemma bcRow_eq_zipWith (f : ℚ → ℚ → ℚ) (ra rb : List ℚ) (h : ra.length = rb.length) :
    bcRow f ra rb = List.zipWith f ra rb := by
  rw [bcRow]
  split_ifs with h1 h2
  · obtain ⟨a, rfl⟩ := List.length_eq_one.mp h1
    obtain ⟨b, rfl⟩ := List.length_eq_one.mp (h ▸ h1)
    simp
  · exact absurd (h.trans h2) h1
  · rfl

lemma zipWith_replicate_same {α β γ : Type} (f : α → β → γ) (n : ℕ) (a : α) (b : β) :
    List.zipWith f (List.replicate n a) (List.replicate n b) = List.replicate n (f a b) := by
  induction n with
  | zero => rfl
  | succ k ih => simp [List.replicate_succ, ih]

lemma npMul_col_one (m : ℕ) (x : ℚ) (v : List ℚ) :
    npMul (.two (List.replicate m [x])) (.one v) =
      .two (List.replicate m (v.map (fun b => x * b))) := by
  simp [npMul, bc, List.map_replicate, bcRow_singleton]

lemma npMul_col_two (m : ℕ) (x : ℚ) (r : List ℚ) :
    npMul (.two (List.replicate m [x])) (.two (List.replicate m r)) =
      .two (List.replicate m (r.map (fun b => x * b))) := by
  simp [npMul, bc, zipWith_replicate_same, bcRow_singleton]

lemma npAdd_one_two (a : List ℚ) (m : ℕ) (r : List ℚ) :
    npAdd (.one a) (.two (List.replicate m r)) =
      .two (List.replicate m (bcRow (fun a b => a + b) a r)) := by
  simp [npAdd, bc, List.map_replicate]

lemma npDivS_two (rows : List (List ℚ)) (s : ℚ) :
    npDivS (.two rows) s = .two (rows.map (fun r => r.map (fun t => t / s))) := rfl

lemma npDivS_one (d : List ℚ) (s : ℚ) :
    npDivS (.one d) s = .one (d.map (fun t => t / s)) := rfl


lemma seg_zip (dxd : List ℚ) (c : List (List ℚ)) :
    List.zipWith (fun a b => a * b) dxd
      (List.zipWith (fun a b => a + b) (colD c 3)
        (List.zipWith (fun a b => a * b) dxd
          (List.zipWith (fun a b => a + b) ((colD c 2).map (fun t => t / 2))
            (List.zipWith (fun a b => a * b) dxd
              (List.zipWith (fun a b => a + b) ((colD c 1).map (fun t => t / 3))
                ((List.zipWith (fun a b => a * b) dxd (colD c 0)).map (fun t => t / 4))))))) =
      List.zipWith specSegmentIntegral dxd c := by
  induction dxd generalizing c with
  | nil => simp
  | cons d ds ih =>
    cases c with
    | nil => simp [colD]
    | cons r rs =>
      simp only [colD, List.map_cons, List.zipWith_cons_cons]
      rw [← colD, ← colD, ← colD, ← colD]
      rw [ih rs]
      rfl

lemma fhat_one_flatten (dxd : List ℚ) (c : List (List ℚ)) :
    (fhatExpr (.one dxd) c).flatten = List.zipWith specSegmentIntegral dxd c := by
  rw [← seg_zip]
  rfl

lemma column_row (x : ℚ) (c : List (List ℚ)) :
    ((List.zipWith (fun a b => a + b) (colD c 3)
      ((List.zipWith (fun a b => a + b) ((colD c 2).map (fun t => t / 2))
        ((List.zipWith (fun a b => a + b) ((colD c 1).map (fun t => t / 3))
          (((colD c 0).map (fun b => x * b)).map (fun t => t / 4))).map
            (fun b => x * b))).map (fun b => x * b))).map (fun b => x * b)) =
      List.zipWith specSegmentIntegral (List.replicate c.length x) c := by
  induction c with
  | nil => simp [colD]
  | cons r rs ih =>
    simp only [colD, List.map_cons, List.zipWith_cons_cons, List.length_cons,
      List.replicate_succ]
    rw [← colD, ← colD, ← colD, ← colD]
    rw [ih]
    rfl

lemma length_bcRow (f : ℚ → ℚ → ℚ) (ra rb : List ℚ) (h : ra.length = rb.length) :
    (bcRow f ra rb).length = rb.length := by
  rw [bcRow_eq_zipWith f ra rb h]
  simp [h]

lemma fhatExpr_column (m : ℕ) (x : ℚ) (c : List (List ℚ)) :
    fhatExpr (.two (List.replicate m [x])) c =
      .two (List.replicate m (List.zipWith specSegmentIntegral
        (List.replicate c.length x) c)) := by
  rw [fhatExpr]
  simp only [npMul_col_one, npDivS_two, List.map_replicate, npDivS_one,
    npAdd_one_two, npMul_col_two]
  have h3 : ((colD c 1).map (fun t => t / 3)).length =
      (((colD c 0).map (fun b => x * b)).map (fun t => t / 4)).length := by
    simp [length_colD]
  rw [bcRow_eq_zipWith _ ((colD c 1).map (fun t => t / 3)) _ h3]
  have h2 : ((colD c 2).map (fun t => t / 2)).length =
      ((List.zipWith (fun a b => a + b) ((colD c 1).map (fun t => t / 3))
        (((colD c 0).map (fun b => x * b)).map (fun t => t / 4))).map
          (fun b => x * b)).length := by
    simp [length_colD]
  rw [bcRow_eq_zipWith _ ((colD c 2).map (fun t => t / 2)) _ h2]
  have h1 : (colD c 3).length =
      ((List.zipWith (fun a b => a + b) ((colD c 2).map (fun t => t / 2))
        ((List.zipWith (fun a b => a + b) ((colD c 1).map (fun t => t / 3))
          (((colD c 0).map (fun b => x * b)).map (fun t => t / 4))).map
            (fun b => x * b))).map (fun b => x * b)).length := by
    simp [length_colD]
  rw [bcRow_eq_zipWith _ (colD c 3) _ h1]
  rw [column_row]

lemma intgrad1_scalar_eq (fitter : List ℚ → List ℚ → List (List ℚ))
    (d : List ℚ) (hd : 2 ≤ d.length) (mdx q : ℚ) :
    intgrad1 fitter (.one d) (.scalar mdx) (.scalar q) =
      .ok ((0 :: npCumsumList (NpArr.flatten (fhatExpr
            (.two (List.replicate (d.length - 1) [mdx]))
            (fitter ((List.range d.length).map (fun i => (i : ℚ) * mdx)) d)))).map
          (fun t => q + t)) := by
  rw [intgrad1, resolveSpacing]
  simp [fxNdim, fxSize, fxData, dxSize, dxScalarVal, badF1, f1Size, f1IsNan,
    f1IsFinite, f1Scalar, Nat.not_lt.mpr hd]

lemma intgrad1_vec_eq (fitter : List ℚ → List ℚ → List (List ℚ))
    (d ds : List ℚ) (hd : 2 ≤ d.length) (hlen : ds.length = d.length)
    (hmono : (npDiff ds).any (fun t => decide (t ≤ 0)) = false) (q : ℚ) :
    intgrad1 fitter (.one d) (.vec ds) (.scalar q) =
      .ok ((0 :: npCumsumList (NpArr.flatten (fhatExpr (.one (npDiff ds))
            (fitter ds d)))).map (fun t => q + t)) := by
  have hne1 : ds.length ≠ 1 := by omega
  have hne1d : d.length ≠ 1 := by omega
  rw [intgrad1, resolveSpacing]
  simp [fxNdim, fxSize, fxData, dxSize, dxScalarVal, dxVec, badF1, f1Size, f1IsNan,
    f1IsFinite, f1Scalar, Nat.not_lt.mpr hd, hne1, hne1d, hlen, hmono]

lemma scalar_output_length (fitter : List ℚ → List ℚ → List (List ℚ))
    (d : List ℚ) (hd : 2 ≤ d.length) (mdx q : ℚ) :
    (intgrad1 fitter (.one d) (.scalar mdx) (.scalar q)).map List.length =
      .ok (1 + (d.length - 1) *
        (fitter ((List.range d.length).map (fun i => (i : ℚ) * mdx)) d).length) := by
  rw [intgrad1_scalar_eq fitter d hd mdx q, fhatExpr_column]
  simp [NpArr.flatten, List.length_flatten, List.map_replicate, List.sum_replicate,
    length_npCumsumList, List.length_zipWith, smul_eq_mul, Except.map]
  omega

lemma vec_output_length (fitter : List ℚ → List ℚ → List (List ℚ))
    (d ds : List ℚ) (hd : 2 ≤ d.length) (hlen : ds.length = d.length)
    (hmono : (npDiff ds).any (fun t => decide (t ≤ 0)) = false) (q : ℚ) :
    (intgrad1 fitter (.one d) (.vec ds) (.scalar q)).map List.length =
      .ok (1 + min (npDiff ds).length (fitter ds d).length) := by
  rw [intgrad1_vec_eq fitter d ds hd hlen hmono q, fhat_one_flatten]
  simp [length_npCumsumList, List.length_zipWith, Except.map]
  omega

lemma range5_xp : (List.range 5).map (fun i => (i : ℚ) * 1) = [0, 1, 2, 3, 4] := by
  norm_num [List.range_succ]

/-- claim C1: scalar-spacing equivalence.  The claim says a call with scalar
spacing `dx` produces exactly the output of a call with coordinate vector
`[0, dx, ..., (n-1)dx]`.  The code violates it: at derivative `[1,1,1,1,1]`,
`dx = 1`, initial `0`, for every spline fit returning the mandated four
coefficient rows the scalar call returns 17 elements while the vector call
returns 5, so the two results differ.  (The scalar branch rebinds `dx` to an
`(nx-1, 1)` column via `np.matlib.repmat`, the integral expression broadcasts
to an `(nx-1, nx-1)` matrix, and `np.cumsum` flattens it.) -/
theorem scalar_vector_spacing_disagree (fitter : List ℚ → List ℚ → List (List ℚ))
    (hc : (fitter [0, 1, 2, 3, 4] [1, 1, 1, 1, 1]).length = 4) :
    (intgrad1 fitter (.one [1, 1, 1, 1, 1]) (.scalar 1) (.scalar 0)).map List.length =
        .ok 17 ∧
      (intgrad1 fitter (.one [1, 1, 1, 1, 1]) (.vec [0, 1, 2, 3, 4]) (.scalar 0)).map
          List.length = .ok 5 ∧
      intgrad1 fitter (.one [1, 1, 1, 1, 1]) (.scalar 1) (.scalar 0) ≠
        intgrad1 fitter (.one [1, 1, 1, 1, 1]) (.vec [0, 1, 2, 3, 4]) (.scalar 0) := by
  have h1 := scalar_output_length fitter [1, 1, 1, 1, 1] (by norm_num) 1 0
  simp only [List.length_cons, List.length_nil] at h1
  rw [range5_xp, hc] at h1
  norm_num at h1
  have h2 := vec_output_length fitter [1, 1, 1, 1, 1] [0, 1, 2, 3, 4] (by norm_num)
    (by norm_num) (by norm_num [npDiff]) 0
  rw [hc] at h2
  norm_num [npDiff] at h2
  refine ⟨h1, h2, fun heq => ?_⟩
  rw [heq, h2] at h1
  exact absurd (Except.ok.inj h1) (by norm_num)

/-- claim C2: length preservation.  The claim says the output always has the
length of the derivative input.  The vector-spacing branch does, but the
scalar branch violates it: for the 5-sample derivative `[1,1,1,1,1]` with
scalar spacing 1 (and any spline fit with the mandated four coefficient rows)
the output has `(5-1)^2 + 1 = 17` elements, not 5 — contradicting the source's
own docstring ("fhat - vector of length nx"). -/
theorem scalar_spacing_length_bug (fitter : List ℚ → List ℚ → List (List ℚ))
    (hc : (fitter [0, 1, 2, 3, 4] [1, 1, 1, 1, 1]).length = 4) :
    (intgrad1 fitter (.one [1, 1, 1, 1, 1]) (.scalar 1) (.scalar 0)).map List.length =
        .ok 17 ∧
      fxSize (.one [1, 1, 1, 1, 1]) = 5 ∧ (17 : ℕ) ≠ 5 := by
  have h1 := scalar_output_length fitter [1, 1, 1, 1, 1] (by norm_num) 1 0
  simp only [List.length_cons, List.length_nil] at h1
  rw [range5_xp, hc] at h1
  norm_num at h1
  exact ⟨h1, by norm_num [fxSize], by norm_num⟩

/-- claim C3: constant-derivative exactness.  The claim expects derivative
`[1,1,1,1,1]`, spacing 1, initial 0 to yield `[0,1,2,3,4]`.  With the spline
fit of constant data (every segment `[0,0,0,1]`) the code instead returns the
17-element `[0,1,...,16]`; its first five entries do match the claimed ramp,
but the output is not `[0,1,2,3,4]`. -/
theorem constant_derivative_concrete :
    intgrad1 splineConstOne (.one [1, 1, 1, 1, 1]) (.scalar 1) (.scalar 0) =
        .ok [0, 1, 2, 3, 4, 5, 6, 7, 8, 9, 10, 11, 12, 13, 14, 15, 16] ∧
      ([0, 1, 2, 3, 4, 5, 6, 7, 8, 9, 10, 11, 12, 13, 14, 15, 16] : List ℚ).take 5 =
        [0, 1, 2, 3, 4] ∧
      ([0, 1, 2, 3, 4, 5, 6, 7, 8, 9, 10, 11, 12, 13, 14, 15, 16] : List ℚ) ≠
        [0, 1, 2, 3, 4] := by
  refine ⟨?_, by norm_num, fun h => by simpa using congrArg List.length h⟩
  norm_num [intgrad1, resolveSpacing, fhatExpr, splineConstOne, badF1, f1Size,
    f1IsNan, f1IsFinite, f1Scalar, fxNdim, fxSize, fxData, dxSize, dxScalarVal,
    npMul, npAdd, npDivS, bc, bcRow, colD, NpArr.mapQ, NpArr.flatten,
    npCumsumList, cumsumFrom, npDiff, List.range_succ]

/-- claim C4: segment integrals and cumulative assembly.  On the
vector-spacing path the code output is exactly the assembly the specification
describes: the initial value prefixed to the running sums (ascending order) of
the closed-form integrals `dx*(c3 + dx*(c2/2 + dx*(c1/3 + dx*c0/4)))` of the
fitted segments.  But the claim quantifies over every valid input, and on the
scalar-spacing path at derivative `[1,1,1,1,1]`, spacing 1, initial 0 the code
returns 17 entries, which is not the 5-entry assembly `[0,1,2,3,4]` built from
the segment integrals. -/
theorem segment_integral_assembly :
    (∀ (fitter : List ℚ → List ℚ → List (List ℚ)) (d ds : List ℚ) (q : ℚ),
      2 ≤ d.length → ds.length = d.length →
      (npDiff ds).any (fun t => decide (t ≤ 0)) = false →
      intgrad1 fitter (.one d) (.vec ds) (.scalar q) =
        .ok (specAssemble q
          (List.zipWith specSegmentIntegral (npDiff ds) (fitter ds d)))) ∧
    intgrad1 splineConstOne (.one [1, 1, 1, 1, 1]) (.scalar 1) (.scalar 0) =
        .ok [0, 1, 2, 3, 4, 5, 6, 7, 8, 9, 10, 11, 12, 13, 14, 15, 16] ∧
    specAssemble 0 (List.zipWith specSegmentIntegral (npDiff [0, 1, 2, 3, 4])
        (splineConstOne [0, 1, 2, 3, 4] [1, 1, 1, 1, 1])) = [0, 1, 2, 3, 4] ∧
    ([0, 1, 2, 3, 4, 5, 6, 7, 8, 9, 10, 11, 12, 13, 14, 15, 16] : List ℚ) ≠
      [0, 1, 2, 3, 4] := by
  refine ⟨?_, ?_, ?_, fun h => by simpa using congrArg List.length h⟩
  · intro fitter d ds q hd hlen hmono
    rw [intgrad1_vec_eq fitter d ds hd hlen hmono q, fhat_one_flatten]
    rfl
  · norm_num [intgrad1, resolveSpacing, fhatExpr, splineConstOne, badF1, f1Size,
      f1IsNan, f1IsFinite, f1Scalar, fxNdim, fxSize, fxData, dxSize, dxScalarVal,
      npMul, npAdd, npDivS, bc, bcRow, colD, NpArr.mapQ, NpArr.flatten,
      npCumsumList, cumsumFrom, npDiff, List.range_succ]
  · norm_num [specAssemble, specSegmentIntegral, npDiff, splineConstOne,
      npCumsumList, cumsumFrom]

/-- claim C5: initial-value anchoring.  Whenever the call returns (on either
spacing branch and for every fitter), the initial value was a finite scalar
`q` and the first element of the output equals `q` exactly. -/
theorem output_head_eq_initial (fitter : List ℚ → List ℚ → List (List ℚ))
    (fx : FxInput) (dx : DxInput) (f1 : F1Val) (l : List ℚ)
    (h : intgrad1 fitter fx dx f1 = .ok l) :
    ∃ q : ℚ, f1 = F1Val.scalar q ∧ l.head? = some q := by
  rw [intgrad1] at h
  by_cases h1 : 1 < fxNdim fx
  · simp [h1] at h
  · rw [if_neg h1] at h
    by_cases h2 : fxSize fx < 2
    · simp [h2] at h
    · rw [if_neg h2] at h
      rcases hrs : resolveSpacing (fxSize fx) dx with e | p
      · rw [hrs] at h
        simp at h
      · rw [hrs] at h
        obtain ⟨xp, dxA⟩ := p
        by_cases hb : badF1 f1 = true
        · simp [hb] at h
        · simp only [Bool.not_eq_true] at hb
          simp [hb] at h
          obtain ⟨q, hq⟩ : ∃ q, f1 = F1Val.scalar q := by
            cases f1 <;> simp [badF1, f1Size, f1IsNan, f1IsFinite] at hb ⊢
          refine ⟨q, hq, ?_⟩
          rw [← h]
          simp [hq, f1Scalar]

/-- claim C6: monotonic-spacing rejection.  For a 1-D derivative of length
n ≥ 2 and a spacing sequence of length n, the call raises the monotonicity
error iff some adjacent difference of the spacing sequence is ≤ 0; the result
does not consult the spline fitter, so no spline fitting is involved. -/
theorem monotonicity_error_iff (fitter : List ℚ → List ℚ → List (List ℚ))
    (d ds : List ℚ) (f1 : F1Val) (hd : 2 ≤ d.length) (hlen : ds.length = d.length) :
    intgrad1 fitter (.one d) (.vec ds) f1 = .error .monotonicity ↔
      (npDiff ds).any (fun t => decide (t ≤ 0)) = true := by
  have hne1 : ds.length ≠ 1 := by omega
  rw [intgrad1, resolveSpacing]
  simp only [fxNdim, fxSize, fxData, dxSize, dxVec, Nat.lt_irrefl,
    if_neg (by norm_num : ¬(1 : ℕ) < 1), if_neg (Nat.not_lt.mpr hd), if_neg hne1,
    if_pos hlen]
  by_cases hmono : (npDiff ds).any (fun t => decide (t ≤ 0)) = true
  · simp [hmono]
  · simp only [Bool.not_eq_true] at hmono
    simp only [hmono, Bool.false_eq_true, if_false]
    by_cases hb : badF1 f1 = true
    · simp [hb, hmono]
    · simp only [Bool.not_eq_true] at hb
      simp [hb, hmono]

/-- claim C7: shape rejection.  The call raises the shape error whenever the
derivative input is not one-dimensional or has fewer than two elements,
whatever the spacing, initial value and spline fitter are (so before any
other work). -/
theorem shape_error_of_bad_shape (fitter : List ℚ → List ℚ → List (List ℚ))
    (fx : FxInput) (dx : DxInput) (f1 : F1Val)
    (h : fxNdim fx ≠ 1 ∨ fxSize fx < 2) :
    intgrad1 fitter fx dx f1 = .error .shape := by
  rw [intgrad1]
  cases fx with
  | zeroD q => simp [fxNdim, fxSize]
  | one data =>
    rcases h with hn | hs
    · exact absurd rfl hn
    · simp [fxNdim, fxSize] at hs ⊢
      simp [hs]
  | multi rows => simp [fxNdim]

/-- claim C8: spacing-size rejection.  For a 1-D derivative of length n ≥ 2,
the spacing error is raised iff the spacing argument's size is neither 1 nor
n; and a size-1 spacing sequence `[dq]` behaves exactly like the scalar
spacing `dq`. -/
theorem spacing_error_iff (fitter : List ℚ → List ℚ → List (List ℚ))
    (d : List ℚ) (dx : DxInput) (f1 : F1Val) (hd : 2 ≤ d.length) :
    (intgrad1 fitter (.one d) dx f1 = .error .spacing ↔
      dxSize dx ≠ 1 ∧ dxSize dx ≠ d.length) ∧
    (∀ dq : ℚ, intgrad1 fitter (.one d) (.vec [dq]) f1 =
      intgrad1 fitter (.one d) (.scalar dq) f1) := by
  constructor
  · rw [intgrad1, resolveSpacing]
    simp only [fxNdim, fxSize, fxData, if_neg (by norm_num : ¬(1 : ℕ) < 1),
      if_neg (Nat.not_lt.mpr hd)]
    by_cases hs1 : dxSize dx = 1
    · simp only [hs1, if_pos rfl]
      by_cases hb : badF1 f1 = true
      · simp [hb]
      · simp only [Bool.not_eq_true] at hb
        simp [hb, hs1]
    · simp only [if_neg hs1]
      by_cases hsn : dxSize dx = d.length
      · simp only [hsn, if_pos rfl]
        by_cases hmono : ((npDiff (dxVec dx)).any (fun t => decide (t ≤ 0))) = true
        · simp [hmono, hs1, hsn]
        · simp only [Bool.not_eq_true] at hmono
          by_cases hb : badF1 f1 = true
          · simp [hmono, hb, hs1, hsn]
          · simp only [Bool.not_eq_true] at hb
            simp [hmono, hb, hs1, hsn]
      · simp [hsn, hs1]
  · intro dq
    rw [intgrad1, intgrad1, resolveSpacing, resolveSpacing]
    simp [dxSize, dxScalarVal]

/-- claim C9: initial-value rejection.  For inputs passing the shape, size
and monotonicity checks, the call raises the value error iff the initial
value is a non-scalar, NaN, or an infinity; the result holds for every
fitter, i.e. the check precedes the spline fit. -/
theorem value_error_iff (fitter : List ℚ → List ℚ → List (List ℚ))
    (d : List ℚ) (dx : DxInput) (f1 : F1Val) (hd : 2 ≤ d.length)
    (hdx : dxSize dx = 1 ∨ (dxSize dx = d.length ∧
      (npDiff (dxVec dx)).any (fun t => decide (t ≤ 0)) = false)) :
    intgrad1 fitter (.one d) dx f1 = .error .value ↔
      1 < f1Size f1 ∨ f1IsNan f1 = true ∨ f1IsFinite f1 = false := by
  have hbad : (badF1 f1 = true) ↔
      (1 < f1Size f1 ∨ f1IsNan f1 = true ∨ f1IsFinite f1 = false) := by
    simp [badF1, Bool.or_eq_true, decide_eq_true_iff, Bool.not_eq_true']
    tauto
  rw [intgrad1, resolveSpacing]
  simp only [fxNdim, fxSize, fxData, if_neg (by norm_num : ¬(1 : ℕ) < 1),
    if_neg (Nat.not_lt.mpr hd)]
  rcases hdx with hs1 | ⟨hsn, hmono⟩
  · simp only [hs1, if_pos rfl]
    by_cases hb : badF1 f1 = true
    · simp [hb, ← hbad]
    · simp only [Bool.not_eq_true] at hb
      simp [hb, ← hbad]
  · by_cases hs1 : dxSize dx = 1
    · simp only [hs1, if_pos rfl]
      by_cases hb : badF1 f1 = true
      · simp [hb, ← hbad]
      · simp only [Bool.not_eq_true] at hb
        simp [hb, ← hbad]
    · have hne1d : d.length ≠ 1 := by omega
      simp only [if_neg hs1, hsn, if_pos rfl, hmono]
      by_cases hb : badF1 f1 = true
      · simp [hb, ← hbad, hmono, hne1d]
      · simp only [Bool.not_eq_true] at hb
        simp [hb, ← hbad, hmono, hne1d]

lemma heap_extends (fitter : List ℚ → List ℚ → List (List ℚ))
    (h : List NpArr) (fxRef : ℕ) (dxArg : DxArg) (f1 : F1Val) :
    ∃ ext, (intgrad1Heap fitter h fxRef dxArg f1).fst = h ++ ext := by
  unfold intgrad1Heap
  dsimp only
  repeat' split
  all_goals first
    | exact ⟨[], (List.append_nil h).symm⟩
    | (simp only [List.append_assoc]; exact ⟨_, rfl⟩)

/-- claim C10: no input mutation.  In the heap-passing model, where the caller
passes its derivative array and any spacing array by reference and every
numpy operation allocates a fresh cell (the source contains no in-place array
store), every heap cell that existed before the call — in particular the
derivative array and the spacing array — holds exactly the same value after
the call returns or fails. -/
theorem no_input_mutation (fitter : List ℚ → List ℚ → List (List ℚ))
    (h : List NpArr) (fxRef : ℕ) (dxArg : DxArg) (f1 : F1Val) (r : ℕ)
    (hr : r < h.length) :
    ((intgrad1Heap fitter h fxRef dxArg f1).fst).getD r (.one []) =
      h.getD r (.one []) := by
  obtain ⟨ext, hext⟩ := heap_extends fitter h fxRef dxArg f1
  rw [hext, List.getD_append _ _ _ _ hr]

theorem scalar_vector_spacing_disagree_wit :
    (intgrad1 splineConstOne (.one [1, 1, 1, 1, 1]) (.scalar 1) (.scalar 0)).map
        List.length = .ok 17 ∧
      (intgrad1 splineConstOne (.one [1, 1, 1, 1, 1]) (.vec [0, 1, 2, 3, 4])
          (.scalar 0)).map List.length = .ok 5 ∧
      intgrad1 splineConstOne (.one [1, 1, 1, 1, 1]) (.scalar 1) (.scalar 0) ≠
        intgrad1 splineConstOne (.one [1, 1, 1, 1, 1]) (.vec [0, 1, 2, 3, 4])
          (.scalar 0) :=
  scalar_vector_spacing_disagree splineConstOne (by norm_num [splineConstOne])

theorem scalar_spacing_length_bug_wit :
    (intgrad1 splineConstOne (.one [1, 1, 1, 1, 1]) (.scalar 1) (.scalar 0)).map
        List.length = .ok 17 ∧
      fxSize (.one [1, 1, 1, 1, 1]) = 5 ∧ (17 : ℕ) ≠ 5 :=
  scalar_spacing_length_bug splineConstOne (by norm_num [splineConstOne])

theorem segment_integral_assembly_wit :
    intgrad1 splineConstOne (.one [1, 1, 1, 1, 1]) (.vec [0, 1, 2, 3, 4])
        (.scalar 0) =
      .ok (specAssemble 0 (List.zipWith specSegmentIntegral (npDiff [0, 1, 2, 3, 4])
        (splineConstOne [0, 1, 2, 3, 4] [1, 1, 1, 1, 1]))) :=
  segment_integral_assembly.1 splineConstOne [1, 1, 1, 1, 1] [0, 1, 2, 3, 4] 0
    (by norm_num) (by norm_num) (by norm_num [npDiff])

theorem output_head_eq_initial_wit :
    ∃ q : ℚ, F1Val.scalar (0 : ℚ) = F1Val.scalar q ∧
      ([0, 1] : List ℚ).head? = some q :=
  output_head_eq_initial splineConstOne (.one [1, 1]) (.scalar 1) (.scalar 0) [0, 1]
    (by
      norm_num [intgrad1, resolveSpacing, fhatExpr, splineConstOne, badF1, f1Size,
        f1IsNan, f1IsFinite, f1Scalar, fxNdim, fxSize, fxData, dxSize, dxScalarVal,
        npMul, npAdd, npDivS, bc, bcRow, colD, NpArr.mapQ, NpArr.flatten,
        npCumsumList, cumsumFrom, List.range_succ])

theorem monotonicity_error_iff_wit :
    intgrad1 splineConstOne (.one [1, 1, 1, 1]) (.vec [0, 1, 1, 3]) (.scalar 0) =
      .error .monotonicity :=
  (monotonicity_error_iff splineConstOne [1, 1, 1, 1] [0, 1, 1, 3] (.scalar 0)
    (by norm_num) (by norm_num)).mpr (by norm_num [npDiff])

theorem shape_error_of_bad_shape_wit :
    intgrad1 splineConstOne (.one [5]) (.scalar 1) (.scalar 0) = .error .shape :=
  shape_error_of_bad_shape splineConstOne (.one [5]) (.scalar 1) (.scalar 0)
    (Or.inr (by norm_num [fxSize]))

theorem spacing_error_iff_wit :
    intgrad1 splineConstOne (.one [1, 1, 1]) (.vec [0, 1]) (.scalar 0) =
      .error .spacing :=
  (spacing_error_iff splineConstOne [1, 1, 1] (.vec [0, 1]) (.scalar 0)
    (by norm_num)).1.mpr (by norm_num [dxSize])

theorem value_error_iff_wit :
    intgrad1 splineConstOne (.one [1, 1]) (.scalar 1) F1Val.nan = .error .value :=
  (value_error_iff splineConstOne [1, 1] (.scalar 1) .nan (by norm_num)
    (Or.inl rfl)).mpr (Or.inr (Or.inl rfl))

theorem no_input_mutation_wit :
    ((intgrad1Heap splineConstOne [NpArr.one [1, 2], NpArr.one [0, 1]] 0
        (.vecRef 1) (.scalar 0)).fst).getD 0 (.one []) =
      ([NpArr.one [1, 2], NpArr.one [0, 1]] : List NpArr).getD 0 (.one []) :=
  no_input_mutation splineConstOne [.one [1, 2], .one [0, 1]] 0 (.vecRef 1)
    (.scalar 0) 0 (by norm_num)

end Intgrad1
